import Mathlib

/-!
Shallow embedding of the vertigo reverse proxy (Go) for checking its
natural-language specification.  Each definition translates one Go
function; times are Unix-style natural numbers, Go `int` token counts
are `Int`, Go maps become Lean functions, and Go slices become lists.
-/

namespace Vertigo

/-! ### Credential pool: `KeyManager` and `KeyRotator` (internal/proxy) -/

/-- `KeyStatus` from the Go source: `IsBad` flag and `BadUntil` time
(Unix seconds; the Go zero `time.Time` is modelled as `0`). -/
structure KeyStatus where
  isBad : Bool
  badUntil : Nat
deriving Repr, DecidableEq

/-- `KeyManager`: the key list together with the `keyStatus` map.
`NewKeyManager` populates the map exactly on the configured keys, so the
map is modelled as a total function whose meaningful domain is `keys`. -/
structure KeyManager where
  keys : List String
  keyStatus : String → KeyStatus

/-- The scan loop of `KeyManager.GetNextAvailableKey`: walk the key list
in order, return the first key with `!status.IsBad ||
time.Now().After(status.BadUntil)` (Go `After` is strict `>`), clearing
its `IsBad` flag; return `""` when no key qualifies. -/
def getNextAvailableKeyAux : List String → (String → KeyStatus) → Nat →
    String × (String → KeyStatus)
  | [], st, _ => ("", st)
  | k :: rest, st, now =>
    let s := st k
    if s.isBad = false ∨ s.badUntil < now then
      (k, fun x => if x = k then { s with isBad := false } else st x)
    else
      getNextAvailableKeyAux rest st now

/-- `KeyManager.GetNextAvailableKey`: note that every call scans from
the head of `keys`; there is no rotation cursor in this structure. -/
def kmGetNextAvailableKey (km : KeyManager) (now : Nat) : String × KeyManager :=
  let r := getNextAvailableKeyAux km.keys km.keyStatus now
  (r.1, { km with keyStatus := r.2 })

/-- `KeyManager.MarkKeyAsBad`: if the key is in the map (i.e. among the
configured keys), unconditionally set its status to
`{IsBad: true, BadUntil: now + duration}`. -/
def markKeyAsBad (km : KeyManager) (key : String) (duration now : Nat) : KeyManager :=
  if km.keys.contains key then
    { km with
      keyStatus := fun x =>
        if x = key then { isBad := true, badUntil := now + duration }
        else km.keyStatus x }
  else km

/-- `KeyRotator`: key list plus the round-robin cursor `index`. -/
structure KeyRotator where
  keys : List String
  index : Nat
deriving Repr, DecidableEq

/-- `KeyRotator.GetNextKey`: return `keys[index]` and advance the cursor
modulo the pool size; return `""` on an empty pool. -/
def getNextKey (kr : KeyRotator) : String × KeyRotator :=
  if kr.keys.length = 0 then ("", kr)
  else (kr.keys.getD kr.index "", { kr with index := (kr.index + 1) % kr.keys.length })

/-- Iterate `GetNextKey` `n` times, collecting the returned keys in call
order together with the final rotator state. -/
def runRotator : KeyRotator → Nat → List String × KeyRotator
  | kr, 0 => ([], kr)
  | kr, Nat.succ n =>
    let p := getNextKey kr
    let q := runRotator p.2 n
    (p.1 :: q.1, q.2)

/-- Outcome of the credential-acquisition step of `Manager.ProcessRequest`:
either the request fails with "no API keys available" before any upstream
call, or the upstream is called with the acquired key. -/
inductive ProcessOutcome where
  | noKeys
  | callUpstream (key : String)
deriving Repr, DecidableEq

/-- The acquire step of `Manager.ProcessRequest` (part_004 lines 70-74):
one call to `GetNextAvailableKey`; an empty key is surfaced as an error
immediately, with no retry and no upstream call. -/
def processRequestAcquire (km : KeyManager) (now : Nat) : ProcessOutcome × KeyManager :=
  let r := kmGetNextAvailableKey km now
  if r.1 = "" then (ProcessOutcome.noKeys, r.2)
  else (ProcessOutcome.callUpstream r.1, r.2)

/-! ### Messages and the volatile conversation store (internal/store, in-memory) -/

/-- `store.Message`: role and content. -/
structure Message where
  role : String
  content : String
deriving Repr, DecidableEq

/-- In-memory `store.Conversation`: ordered messages plus `LastUpdated`. -/
structure VConversation where
  messages : List Message
  lastUpdated : Nat
deriving Repr, DecidableEq

/-- The in-memory `ConversationStore` is a `sync.Map` from conversation id
to conversation, modelled as a partial function. -/
def VStore := String → Option VConversation

/-- In-memory `ConversationStore.GetConversation`: on a hit, set the stored
conversation's `LastUpdated` to the current time (in place, through the
shared pointer) and return it; on a miss, create and store an empty
conversation stamped with the current time. -/
def vGetConversation (s : VStore) (id : String) (now : Nat) : VConversation × VStore :=
  match s id with
  | some c =>
    let c2 := { c with lastUpdated := now }
    (c2, fun x => if x = id then some c2 else s x)
  | none =>
    let c : VConversation := { messages := [], lastUpdated := now }
    (c, fun x => if x = id then some c else s x)

/-! ### Durable conversation store (internal/store, SQLite-backed) -/

/-- One row of the `messages` table: conversation id foreign key, role,
content, Unix timestamp (the autoincrement id is the list position). -/
structure MessageRow where
  conversationId : String
  role : String
  content : String
  timestamp : Nat
deriving Repr, DecidableEq

/-- One row of the `conversations` table. -/
structure ConversationRow where
  id : String
  lastUpdated : Nat
deriving Repr, DecidableEq

/-- The SQLite database state: both tables, rows in insertion order. -/
structure DB where
  conversations : List ConversationRow
  messages : List MessageRow
deriving Repr, DecidableEq

/-- Whether a `conversations` row with the given id exists. -/
def DB.hasConversation (db : DB) (id : String) : Bool :=
  db.conversations.any (fun r => r.id = id)

/-- `SELECT role, content FROM messages WHERE conversation_id = ? ORDER BY
timestamp ASC`: timestamps are nondecreasing in insertion order and the
sort is modelled as stable, so this is a filter in insertion order. -/
def messagesFor (db : DB) (id : String) : List Message :=
  (db.messages.filter (fun r => r.conversationId = id)).map
    (fun r => { role := r.role, content := r.content })

/-- `last_updated` of a conversation row, `0` if the row is absent. -/
def lastUpdatedFor (db : DB) (id : String) : Nat :=
  ((db.conversations.find? (fun r => r.id = id)).map (fun r => r.lastUpdated)).getD 0

/-- The durable `store.Conversation` value returned by `GetConversation`. -/
structure DConversation where
  id : String
  messages : List Message
  lastUpdated : Nat
deriving Repr, DecidableEq

/-- Durable `ConversationStore.GetConversation`: an empty id is replaced by
a freshly generated UUID (passed in as `uuid`); if the row exists, load the
ordered message history; otherwise insert a fresh conversation row (under
the possibly-generated id) and return it with no messages. -/
def dbGetConversation (db : DB) (id uuid : String) (now : Nat) : DConversation × DB :=
  let realId := if id = "" then uuid else id
  if db.hasConversation realId then
    ({ id := realId, messages := messagesFor db realId,
       lastUpdated := lastUpdatedFor db realId }, db)
  else
    ({ id := realId, messages := [], lastUpdated := now },
     { db with conversations := db.conversations ++ [{ id := realId, lastUpdated := now }] })

/-- Durable `ConversationStore.AddMessage`: call `GetConversation` first
(creating the row if needed), then insert the message row — with the
ORIGINAL `conversationID` argument, not the possibly-generated id — and
update the conversation's `last_updated`. -/
def dbAddMessage (db : DB) (conversationID role content uuid : String) (now : Nat) : DB :=
  let db1 := (dbGetConversation db conversationID uuid now).2
  let db2 : DB := { db1 with
    messages := db1.messages ++
      [{ conversationId := conversationID, role := role, content := content,
         timestamp := now }] }
  { db2 with
    conversations := db2.conversations.map
      (fun r => if r.id = conversationID then { id := r.id, lastUpdated := now } else r) }

/-- Boolean referential-integrity check: every message row references an
existing conversation row. -/
def riCheck (db : DB) : Bool :=
  db.messages.all (fun m => db.hasConversation m.conversationId)

/-- One client-visible operation against the durable store. -/
inductive StoreOp where
  | get (id uuid : String) (now : Nat)
  | add (id role content uuid : String) (now : Nat)
deriving Repr, DecidableEq

/-- The conversation id an operation is invoked with. -/
def StoreOp.opId : StoreOp → String
  | .get id _ _ => id
  | .add id _ _ _ _ => id

/-- Apply one store operation to the database. -/
def applyOp (db : DB) : StoreOp → DB
  | .get id uuid now => (dbGetConversation db id uuid now).2
  | .add id role content uuid now => dbAddMessage db id role content uuid now

/-! ### Conversation-id resolution and the Director request path -/

/-- Second-resolution timestamp id `time.Now().Format("20060102150405")`
generated by the Director when the body carries no conversation id: two
requests in the same second format to the same string. -/
def formatTimestamp (unixSeconds : Nat) : String :=
  "ts" ++ toString unixSeconds

/-- Conversation-id resolution of `OpenAIAPI.ChatCompletionsHandler`
(internal/api/openai.go lines 53-59): the `X-Conversation-ID` header if
non-empty, otherwise the fixed placeholder `"default-conversation"`. -/
def resolveConversationID (headerValue : String) : String :=
  if headerValue = "" then "default-conversation" else headerValue

/-- Conversation-id resolution of the Director (part_002 lines 66-70):
the body's `conversation_id` if non-empty, otherwise the formatted
current time. -/
def directorConversationID (bodyID : String) (now : Nat) : String :=
  if bodyID = "" then formatTimestamp now else bodyID

/-- The conversation-context portion of the Director (part_002 lines
66-118): resolve the conversation id, `GetConversation`, append the last
client message to the STORE when its role is `"user"`, re-fetch, and
overwrite the outbound message list with the full fetched history.
Returns the outbound message list and the resulting database. -/
def directorProcess (db : DB) (bodyConversationID : String)
    (clientMsgs : List Message) (uuid : String) (now : Nat) : List Message × DB :=
  let convID := directorConversationID bodyConversationID now
  let db1 := (dbGetConversation db convID uuid now).2
  let db2 :=
    match clientMsgs.getLast? with
    | some m =>
      if m.role = "user" then dbAddMessage db1 convID m.role m.content uuid now
      else db1
    | none => db1
  let r2 := dbGetConversation db2 convID uuid now
  (r2.1.messages, r2.2)

/-! ### History injection of `Manager.ProcessRequest` (part_004 lines 53-61) -/

/-- The Go loop `for _, msg := range conv.Messages { messages =
append([]interface..{m}, messages...) }`: each stored message is PREPENDED
to the client-sent list, so the stored history ends up reversed in front
of the untouched client history.  (The loop runs only when the stored
history is non-empty and the body has a `messages` array; for an empty
history it is the identity, exactly like this fold.) -/
def injectHistory (stored clientMsgs : List Message) : List Message :=
  stored.foldl (fun acc msg => msg :: acc) clientMsgs

/-! ### Model selection (`SelectModel`, part_004 second file) -/

/-- The relevant fields of the inbound JSON body: the model name, the
optional `reasoning_effort` hint (`none` when the field is absent), and
the remaining fields, carried verbatim. -/
structure RequestBody where
  model : String
  reasoningEffort : Option String
  rest : List (String × String)
deriving Repr, DecidableEq

/-- The `switch reqBody.ReasoningEffort` table of `SelectModel`, with the
Go default `gemini-2.5-flash` for an absent or unrecognized hint (an
absent JSON field unmarshals to the empty string, which also falls to the
default branch). -/
def effortToModel : Option String → String
  | some "low" => "gemini-2.0-flash"
  | some "medium" => "gemini-2.5-flash"
  | some "high" => "gemini-2.5-pro"
  | _ => "gemini-2.5-flash"

/-- `SelectModel`: a non-alias model passes through with the body
untouched; the alias `vertigo-1.0-blast` is mapped through the fixed
effort table, the body's model is replaced and its `reasoning_effort`
field deleted. -/
def selectModel (b : RequestBody) : String × RequestBody :=
  if b.model ≠ "vertigo-1.0-blast" then (b.model, b)
  else
    let selected := effortToModel b.reasoningEffort
    (selected, { model := selected, reasoningEffort := none, rest := b.rest })

/-! ### Non-streaming response translation (`ModifyResponse`) -/

/-- `UsageMetadata` of the upstream response (Go `int` counts as `Int`;
the token counts in play are far below any 64-bit wrap). -/
structure UsageMetadata where
  promptTokenCount : Int
  totalTokenCount : Int
deriving Repr, DecidableEq

/-- The client-format usage block. -/
structure Usage where
  promptTokens : Int
  completionTokens : Int
  totalTokens : Int
deriving Repr, DecidableEq

/-- The usage mapping of `ModifyResponse` (proxy_handler.go lines 188-190
and part_002 lines 215-217): `CompletionTokens = TotalTokenCount -
PromptTokenCount`, with no further adjustment. -/
def deriveUsage (m : UsageMetadata) : Usage :=
  { promptTokens := m.promptTokenCount
  , completionTokens := m.totalTokenCount - m.promptTokenCount
  , totalTokens := m.totalTokenCount }

/-- Modelled from the spec: the usage derivation the specification
describes, with the completion count clamped to zero when the upstream
reports `total < prompt`.  Kept separate for comparison with
`deriveUsage`, which is translated from the source. -/
def deriveUsageClamped (m : UsageMetadata) : Usage :=
  { promptTokens := m.promptTokenCount
  , completionTokens := max 0 (m.totalTokenCount - m.promptTokenCount)
  , totalTokens := m.totalTokenCount }

/-- The upstream `gemini.ChatResponse`: each candidate is the list of its
content parts' texts, plus the usage metadata. -/
structure GeminiResponse where
  candidateParts : List (List String)
  usageMetadata : UsageMetadata
deriving Repr, DecidableEq

/-- Text extraction of `ModifyResponse`: the first part of the first
candidate, or the empty string when either is missing. -/
def extractText (g : GeminiResponse) : String :=
  match g.candidateParts with
  | (t :: _) :: _ => t
  | _ => ""

/-- One choice of the client-format response body. -/
structure OpenAIChoice where
  role : String
  content : String
  finishReason : String
  index : Int
deriving Repr, DecidableEq

/-- The client-format chat-completion response assembled by
`ModifyResponse`.  Note the structure has no conversation-id field. -/
structure OpenAIResponse where
  id : String
  object : String
  created : Nat
  model : String
  choices : List OpenAIChoice
  usage : Usage
deriving Repr, DecidableEq

/-- `ModifyResponse` on a 200 upstream response (part_002 lines 160-226):
extract the text, append it to the conversation store as an `assistant`
turn when non-empty (returned here as an explicit store effect), and
build the client-format body with a synthesized id, fixed object tag, a
single `stop` choice and the derived usage block. -/
def modifyResponse (g : GeminiResponse) (conversationID : String) (now : Nat) :
    OpenAIResponse × Option (String × Message) :=
  let text := extractText g
  let storeEffect :=
    if text = "" then none
    else some (conversationID, ({ role := "assistant", content := text } : Message))
  ( { id := "chatcmpl-" ++ formatTimestamp now
    , object := "chat.completion"
    , created := now
    , model := "vertigo-1.0-blast"
    , choices := [{ role := "assistant", content := text, finishReason := "stop", index := 0 }]
    , usage := deriveUsage g.usageMetadata }
  , storeEffect )

/-! ### Streaming transcoder (`ChatCompletionsHandler`, openai.go lines 76-147) -/

/-- One upstream stream line as the scan loop classifies it: a line
without the `data: ` prefix (skipped), the `[DONE]` sentinel, a data line
whose JSON parses — carrying the extracted delta content (empty string
when the `choices[0].delta.content` path is absent) and the
`finish_reason` field (`none` when the key is absent, `some none` for an
explicit JSON null, `some (some r)` for a string) — or a data line whose
JSON fails to parse (skipped with a logged error). -/
inductive StreamLine where
  | other
  | done
  | chunk (content : String) (finishReason : Option (Option String))
  | malformed
deriving Repr, DecidableEq

/-- One client-format delta event: the re-encoded chunk. -/
structure DeltaEvent where
  content : String
  finishReason : Option (Option String)
deriving Repr, DecidableEq

/-- One event written to the client: a delta chunk or the terminal
`data: [DONE]` sentinel. -/
inductive ClientEvent where
  | delta (e : DeltaEvent)
  | doneSentinel
deriving Repr, DecidableEq

/-- The streaming loop: every parsed data chunk is re-encoded and flushed
immediately; `[DONE]` breaks the loop; non-data and unparseable lines are
skipped; after the loop — also when the upstream list simply ends, which
covers stream close and I/O errors — exactly one terminal sentinel is
written. -/
def transcodeStream : List StreamLine → List ClientEvent
  | [] => [ClientEvent.doneSentinel]
  | StreamLine.done :: _ => [ClientEvent.doneSentinel]
  | StreamLine.chunk c fr :: rest =>
    ClientEvent.delta { content := c, finishReason := fr } :: transcodeStream rest
  | StreamLine.other :: rest => transcodeStream rest
  | StreamLine.malformed :: rest => transcodeStream rest

/-- The upstream data chunks the loop processes: the parsed chunks that
precede the first `[DONE]` sentinel, in arrival order. -/
def dataChunksBeforeDone : List StreamLine → List DeltaEvent
  | [] => []
  | StreamLine.done :: _ => []
  | StreamLine.chunk c fr :: rest =>
    { content := c, finishReason := fr } :: dataChunksBeforeDone rest
  | StreamLine.other :: rest => dataChunksBeforeDone rest
  | StreamLine.malformed :: rest => dataChunksBeforeDone rest

/-! ## Helper lemmas -/

theorem runRotator_from (keys : List String) :
    ∀ (k i : Nat), i < keys.length → i + k ≤ keys.length →
      runRotator ⟨keys, i⟩ k = ((keys.drop i).take k, ⟨keys, (i + k) % keys.length⟩) := by
  intro k
  induction k with
  | zero =>
    intro i hi _
    simp [runRotator, Nat.mod_eq_of_lt hi]
  | succ n ih =>
    intro i hi h
    have hlen : ¬ keys.length = 0 := by omega
    have hget : keys.getD i "" = keys.get ⟨i, hi⟩ := by
      simp [List.getD_eq_getElem?_getD, List.getElem?_eq_getElem hi]
    have hdrop : keys.drop i = keys.get ⟨i, hi⟩ :: keys.drop (i + 1) :=
      List.drop_eq_getElem_cons hi
    by_cases hi1 : i + 1 < keys.length
    · have hmod : (i + 1) % keys.length = i + 1 := Nat.mod_eq_of_lt hi1
      have hrec := ih (i + 1) hi1 (by omega)
      simp only [runRotator, getNextKey, hlen, if_false, hmod, hrec, hget]
      rw [hdrop]
      simp only [List.take_succ_cons]
      have heq : i + 1 + n = i + (n + 1) := by omega
      rw [heq]
    · have hi1e : i + 1 = keys.length := by omega
      have hn : n = 0 := by omega
      subst hn
      simp only [runRotator, getNextKey, hlen, if_false, hget]
      rw [hdrop]
      have hd2 : keys.drop (i + 1) = [] := by
        rw [hi1e]; exact List.drop_length keys
      rw [hd2]
      simp [hi1e, Nat.mod_self]

theorem keyManager_headOnly (keys : List String) (st : String → KeyStatus) (now : Nat)
    (hgood : ∀ x, (st x).isBad = false) :
    (getNextAvailableKeyAux keys st now).1 = keys.headD "" ∧
    (∀ x, ((getNextAvailableKeyAux keys st now).2 x).isBad = false) := by
  cases keys with
  | nil => exact ⟨rfl, hgood⟩
  | cons k rest =>
    simp only [getNextAvailableKeyAux, if_pos (Or.inl (hgood k))]
    refine ⟨rfl, ?_⟩
    intro x
    by_cases hx : x = k <;> simp [hx, hgood]

theorem getNextAvailableKeyAux_allBad (keys : List String) (st : String → KeyStatus)
    (now : Nat) (h : ∀ k ∈ keys, (st k).isBad = true ∧ now < (st k).badUntil) :
    getNextAvailableKeyAux keys st now = ("", st) := by
  induction keys with
  | nil => rfl
  | cons k rest ih =>
    have hk := h k (by simp)
    have hcond : ¬ ((st k).isBad = false ∨ (st k).badUntil < now) := by
      rcases hk with ⟨h1, h2⟩
      push_neg
      exact ⟨by simp [h1], by omega⟩
    simp only [getNextAvailableKeyAux, if_neg hcond]
    exact ih (fun x hx => h x (by simp [hx]))

/-! ## Claim theorems -/

/-- C1, counterexample: a pool of two healthy credentials and two
`GetNextAvailableKey` calls with no intervening quarantine failure return
the first credential twice — the returned sequence repeats before it has
cycled through both credentials, so `GetNextAvailableKey` does not follow
a persisted round-robin cursor. -/
theorem c1_counterexample :
    (kmGetNextAvailableKey ⟨["k1", "k2"], fun _ => ⟨false, 0⟩⟩ 10).1 = "k1" ∧
    (kmGetNextAvailableKey
        (kmGetNextAvailableKey ⟨["k1", "k2"], fun _ => ⟨false, 0⟩⟩ 10).2 11).1 = "k1" ∧
    ("k1" : String) ≠ "k2" := by
  refine ⟨rfl, rfl, by decide⟩

/-- C1, amended: the round-robin cycling property belongs to
`KeyRotator.GetNextKey`, whose cursor persists across calls — starting
from a fresh rotator over `n ≥ 1` keys, the first `n` calls return all
`n` credentials in list order and the cursor returns to the start —
while `KeyManager.GetNextAvailableKey` has no cursor: with no quarantined
credential it returns the head of the key list on every call and leaves
every credential healthy. -/
theorem c1_amended (keys : List String) (h : keys ≠ []) :
    runRotator ⟨keys, 0⟩ keys.length = (keys, ⟨keys, 0⟩) ∧
    (∀ (st : String → KeyStatus) (now : Nat), (∀ x, (st x).isBad = false) →
      (getNextAvailableKeyAux keys st now).1 = keys.headD "" ∧
      ∀ x, ((getNextAvailableKeyAux keys st now).2 x).isBad = false) := by
  constructor
  · have hl : 0 < keys.length := List.length_pos.mpr h
    have hrun := runRotator_from keys keys.length 0 hl (by omega)
    simpa [Nat.mod_self] using hrun
  · intro st now hgood
    exact keyManager_headOnly keys st now hgood

/-- C1, witness: on the concrete pool `["ka", "kb"]` the rotator's first
two calls return `["ka", "kb"]` and reset the cursor, and the healthy
key manager returns `"ka"`. -/
theorem c1_witness :
    runRotator ⟨["ka", "kb"], 0⟩ 2 = (["ka", "kb"], ⟨["ka", "kb"], 0⟩) ∧
    (getNextAvailableKeyAux ["ka", "kb"] (fun _ => ⟨false, 3⟩) 7).1 = "ka" := by
  refine ⟨(c1_amended ["ka", "kb"] (by simp)).1, ?_⟩
  exact ((c1_amended ["ka", "kb"] (by simp)).2 (fun _ => ⟨false, 3⟩) 7 (fun _ => rfl)).1

/-- C5, counterexample: a credential quarantined until time 100, re-
quarantined at time 1 for duration 10, ends with expiry 11 < 100 — the
second `MarkKeyAsBad` SHORTENS the existing quarantine, contrary to the
claim that the expiry moves only if the new expiry is later. -/
theorem c5_counterexample :
    ((markKeyAsBad ⟨["k"], fun _ => ⟨true, 100⟩⟩ "k" 10 1).keyStatus "k").badUntil = 11 ∧
    (11 : Nat) < 100 ∧
    ((⟨["k"], fun _ => ⟨true, 100⟩⟩ : KeyManager).keyStatus "k").badUntil = 100 := by
  refine ⟨rfl, by norm_num, rfl⟩

/-- C5, amended: `MarkKeyAsBad` on a configured key unconditionally sets
the status to quarantined-until `now + duration`, overwriting any
existing expiry (so it can shorten a quarantine); other keys are
untouched, the pool is unchanged, and repeating the same call at the
same instant is a no-op (idempotence at fixed time). -/
theorem c5_amended (km : KeyManager) (key : String) (d now : Nat)
    (h : km.keys.contains key = true) :
    (markKeyAsBad km key d now).keyStatus key = { isBad := true, badUntil := now + d } ∧
    (∀ x, x ≠ key → (markKeyAsBad km key d now).keyStatus x = km.keyStatus x) ∧
    (markKeyAsBad km key d now).keys = km.keys ∧
    markKeyAsBad (markKeyAsBad km key d now) key d now = markKeyAsBad km key d now := by
  have hmem : key ∈ km.keys := by simpa using h
  refine ⟨by simp [markKeyAsBad, hmem], ?_, by simp [markKeyAsBad, hmem], ?_⟩
  · intro x hx
    simp [markKeyAsBad, hmem, hx]
  · have hfun : (fun x => if x = key then ({ isBad := true, badUntil := now + d } : KeyStatus)
          else (fun y => if y = key then ({ isBad := true, badUntil := now + d } : KeyStatus)
                         else km.keyStatus y) x)
        = fun x => if x = key then { isBad := true, badUntil := now + d }
                   else km.keyStatus x := by
      funext x
      by_cases hx : x = key <;> simp [hx]
    simp [markKeyAsBad, hmem, hfun]

/-- C5, witness: marking the fresh key `"k"` bad at time 1 for duration
10 quarantines it until 11. -/
theorem c5_witness :
    (markKeyAsBad ⟨["k"], fun _ => ⟨false, 0⟩⟩ "k" 10 1).keyStatus "k"
      = { isBad := true, badUntil := 11 } :=
  (c5_amended ⟨["k"], fun _ => ⟨false, 0⟩⟩ "k" 10 1 (by decide)).1

/-- C6, confirmed: when every credential in the pool is quarantined with
`BadUntil` in the future, the acquire step of `Manager.ProcessRequest`
yields the no-credential outcome with the pool state untouched — the
error is surfaced immediately, upstream is never called, and there is no
retry. -/
theorem c6_confirmed (km : KeyManager) (now : Nat)
    (h : ∀ k ∈ km.keys, (km.keyStatus k).isBad = true ∧ now < (km.keyStatus k).badUntil) :
    processRequestAcquire km now = (ProcessOutcome.noKeys, km) := by
  unfold processRequestAcquire kmGetNextAvailableKey
  rw [getNextAvailableKeyAux_allBad km.keys km.keyStatus now h]
  simp

/-- C6, witness: a one-credential pool quarantined until time 100,
acquired at time 5, yields the no-credential outcome. -/
theorem c6_witness :
    processRequestAcquire ⟨["ka"], fun _ => ⟨true, 100⟩⟩ 5
      = (ProcessOutcome.noKeys, ⟨["ka"], fun _ => ⟨true, 100⟩⟩) :=
  c6_confirmed ⟨["ka"], fun _ => ⟨true, 100⟩⟩ 5 (fun k _ => ⟨rfl, by norm_num⟩)

/-- C2, counterexample: an upstream success response reporting
`{prompt: 10, total: 5}` (total < prompt) is translated to a usage block
with completion-token count `-5`, which is negative — the code does not
clamp `total - prompt` to zero. -/
theorem c2_counterexample :
    deriveUsage { promptTokenCount := 10, totalTokenCount := 5 }
      = { promptTokens := 10, completionTokens := -5, totalTokens := 5 } ∧
    (deriveUsage { promptTokenCount := 10, totalTokenCount := 5 }).completionTokens < 0 := by
  refine ⟨by norm_num [deriveUsage], by norm_num [deriveUsage]⟩

/-- C2, amended: the client-format usage block satisfies
`completion = total - prompt` exactly, with no clamping: it agrees with
the clamped derivation the spec describes whenever the upstream reports
`total ≥ prompt`, and is strictly negative whenever the upstream reports
`total < prompt`. -/
theorem c2_amended (m : UsageMetadata) :
    (deriveUsage m).completionTokens = m.totalTokenCount - m.promptTokenCount ∧
    (m.promptTokenCount ≤ m.totalTokenCount → deriveUsage m = deriveUsageClamped m) ∧
    (m.totalTokenCount < m.promptTokenCount → (deriveUsage m).completionTokens < 0) := by
  refine ⟨rfl, ?_, ?_⟩
  · intro h
    unfold deriveUsage deriveUsageClamped
    have : max 0 (m.totalTokenCount - m.promptTokenCount)
        = m.totalTokenCount - m.promptTokenCount := by omega
    rw [this]
  · intro h
    show m.totalTokenCount - m.promptTokenCount < 0
    omega

/-- C2, witness: the consistent upstream usage `{prompt: 10, total: 15}`
derives the clamp-free block, which agrees with the clamped derivation
(completion 5). -/
theorem c2_witness :
    deriveUsage { promptTokenCount := 10, totalTokenCount := 15 }
      = deriveUsageClamped { promptTokenCount := 10, totalTokenCount := 15 } :=
  (c2_amended { promptTokenCount := 10, totalTokenCount := 15 }).2.1 (by norm_num)

theorem injectHistory_eq (stored clientMsgs : List Message) :
    injectHistory stored clientMsgs = stored.reverse ++ clientMsgs := by
  unfold injectHistory
  induction stored generalizing clientMsgs with
  | nil => simp
  | cons a l ih => simp [List.foldl_cons, ih]

theorem dbGet_messages (db : DB) (id uuid : String) (now : Nat) :
    ((dbGetConversation db id uuid now).2).messages = db.messages := by
  unfold dbGetConversation
  split_ifs <;> (dsimp only; split <;> rfl)

theorem dbGet_has (db : DB) (id uuid : String) (now : Nat) (hid : id ≠ "") :
    ((dbGetConversation db id uuid now).2).hasConversation id = true := by
  unfold dbGetConversation
  simp only [if_neg hid]
  split
  · next hhas => exact hhas
  · unfold DB.hasConversation
    simp

theorem dbGet_hit (db : DB) (id uuid : String) (now : Nat) (hid : id ≠ "")
    (hhas : db.hasConversation id = true) :
    dbGetConversation db id uuid now
      = ({ id := id, messages := messagesFor db id,
           lastUpdated := lastUpdatedFor db id }, db) := by
  unfold dbGetConversation
  simp [if_neg hid, hhas]

theorem hasConversation_mapTouch (l : List ConversationRow) (id x : String) (now : Nat) :
    (l.map (fun r => if r.id = id then ({ id := r.id, lastUpdated := now } : ConversationRow)
                     else r)).any (fun r => r.id = x)
      = l.any (fun r => r.id = x) := by
  induction l with
  | nil => rfl
  | cons a t ih =>
    by_cases ha : a.id = id <;> simp [ha, ih]

theorem dbAdd_messages (db : DB) (id role content uuid : String) (now : Nat) :
    (dbAddMessage db id role content uuid now).messages
      = (dbGetConversation db id uuid now).2.messages ++
        [{ conversationId := id, role := role, content := content, timestamp := now }] := by
  rfl

theorem dbAdd_has (db : DB) (id role content uuid : String) (now : Nat) (x : String) :
    (dbAddMessage db id role content uuid now).hasConversation x
      = (dbGetConversation db id uuid now).2.hasConversation x := by
  unfold dbAddMessage DB.hasConversation
  exact hasConversation_mapTouch _ id x now

theorem messagesFor_snoc (dbA dbB : DB) (row : MessageRow) (id : String)
    (h : dbB.messages = dbA.messages ++ [row]) (hr : row.conversationId = id) :
    messagesFor dbB id
      = messagesFor dbA id ++ [({ role := row.role, content := row.content } : Message)] := by
  unfold messagesFor
  rw [h]
  simp [List.filter_append, List.filter, hr]

theorem directorProcess_established (db : DB) (id : String) (hid : id ≠ "")
    (pre : List Message) (m : Message) (hm : m.role = "user") (uuid : String) (now : Nat) :
    (directorProcess db id (pre ++ [m]) uuid now).1 = messagesFor db id ++ [m] := by
  have hcid : directorConversationID id now = id := by
    unfold directorConversationID
    rw [if_neg hid]
  unfold directorProcess
  rw [hcid, List.getLast?_concat]
  dsimp only
  rw [if_pos hm]
  set db1 := (dbGetConversation db id uuid now).2 with hdb1def
  have hdb1has : db1.hasConversation id = true := dbGet_has db id uuid now hid
  have hdb1msgs : db1.messages = db.messages := dbGet_messages db id uuid now
  set db2 := dbAddMessage db1 id m.role m.content uuid now with hdb2def
  have hdb2has : db2.hasConversation id = true := by
    rw [hdb2def, dbAdd_has, dbGet_hit db1 id uuid now hid hdb1has]
    exact hdb1has
  have hdb2msgs : db2.messages
      = db.messages ++ [{ conversationId := id, role := m.role, content := m.content,
                          timestamp := now }] := by
    rw [hdb2def, dbAdd_messages, dbGet_hit db1 id uuid now hid hdb1has]
    show db1.messages ++ _ = _
    rw [hdb1msgs]
  have hmsg : ({ role := m.role, content := m.content } : Message) = m := rfl
  have hfor : messagesFor db2 id = messagesFor db id ++ [m] := by
    rw [messagesFor_snoc db db2
        { conversationId := id, role := m.role, content := m.content, timestamp := now }
        id hdb2msgs rfl, hmsg]
  rw [dbGet_hit db2 id uuid now hid hdb2has]
  exact hfor

/-- C3, counterexample: `Manager.ProcessRequest` with the stored history
`[user m1, assistant m2]` and client message list `[user new]` sends the
stored history REVERSED in front of the (kept, not superseded) client
list — not the stored order with the new turn appended. -/
theorem c3_counterexample :
    injectHistory
        [{ role := "user", content := "m1" }, { role := "assistant", content := "m2" }]
        [{ role := "user", content := "new" }]
      = [{ role := "assistant", content := "m2" }, { role := "user", content := "m1" },
         { role := "user", content := "new" }] ∧
    ([{ role := "assistant", content := "m2" }, { role := "user", content := "m1" },
      { role := "user", content := "new" }] : List Message)
      ≠ [{ role := "user", content := "m1" }, { role := "assistant", content := "m2" },
         { role := "user", content := "new" }] := by
  exact ⟨rfl, by decide⟩

/-- C3, amended: the claimed behavior holds on the reverse-proxy Director
path — with an established conversation id, the outbound list is exactly
the stored history in stored order with the new user turn appended, the
client-sent history superseded — but `Manager.ProcessRequest` instead
prepends the stored history in REVERSED order in front of the client-sent
message list, which it keeps. -/
theorem c3_amended (db : DB) (id : String) (hid : id ≠ "")
    (pre : List Message) (m : Message) (hm : m.role = "user") (uuid : String) (now : Nat)
    (stored clientMsgs : List Message) :
    (directorProcess db id (pre ++ [m]) uuid now).1 = messagesFor db id ++ [m] ∧
    injectHistory stored clientMsgs = stored.reverse ++ clientMsgs :=
  ⟨directorProcess_established db id hid pre m hm uuid now,
   injectHistory_eq stored clientMsgs⟩

/-- C3, witness: on a concrete database holding two messages for
conversation `"c1"`, the Director sends them in stored order followed by
the new user turn, and `ProcessRequest` on a concrete stored pair
reverses it in front of the client list. -/
theorem c3_witness :
    (directorProcess
        ⟨[⟨"c1", 0⟩], [⟨"c1", "user", "old1", 1⟩, ⟨"c1", "assistant", "old2", 2⟩]⟩
        "c1" [{ role := "user", content := "new" }] "u" 9).1
      = messagesFor
          ⟨[⟨"c1", 0⟩], [⟨"c1", "user", "old1", 1⟩, ⟨"c1", "assistant", "old2", 2⟩]⟩ "c1"
        ++ [{ role := "user", content := "new" }] ∧
    injectHistory [{ role := "user", content := "a" }] [{ role := "user", content := "b" }]
      = [{ role := "user", content := "a" }].reverse ++ [{ role := "user", content := "b" }] :=
  c3_amended
    ⟨[⟨"c1", 0⟩], [⟨"c1", "user", "old1", 1⟩, ⟨"c1", "assistant", "old2", 2⟩]⟩
    "c1" (by decide) [] { role := "user", content := "new" } rfl "u" 9
    [{ role := "user", content := "a" }] [{ role := "user", content := "b" }]

/-- C4, confirmed: over every upstream line stream, the transcoder's
output is exactly one delta event per parsed upstream data chunk
preceding the `[DONE]` sentinel — each carrying precisely that chunk's
extracted text delta and finish reason, in arrival order, none merged or
dropped — followed by exactly one terminal sentinel event, which is also
emitted when the stream ends without a sentinel (stream close or I/O
error). -/
theorem c4_confirmed (lines : List StreamLine) :
    transcodeStream lines
      = (dataChunksBeforeDone lines).map ClientEvent.delta ++ [ClientEvent.doneSentinel] ∧
    (transcodeStream lines).count ClientEvent.doneSentinel = 1 := by
  have h1 : transcodeStream lines
      = (dataChunksBeforeDone lines).map ClientEvent.delta ++ [ClientEvent.doneSentinel] := by
    induction lines with
    | nil => rfl
    | cons a rest ih =>
      cases a <;> simp [transcodeStream, dataChunksBeforeDone, ih]
  refine ⟨h1, ?_⟩
  rw [h1, List.count_append]
  have h0 : (List.map ClientEvent.delta (dataChunksBeforeDone lines)).count
      ClientEvent.doneSentinel = 0 := by
    rw [List.count_eq_zero]
    simp
  rw [h0]
  rfl

/-- Concrete streaming run from the spec: chunks `"Hello"`, `" world"`,
then a `"stop"` finish reason, then the sentinel, transcode to exactly
two text deltas, one finish delta, and one terminal sentinel. -/
theorem transcodeStream_example :
    transcodeStream
        [StreamLine.chunk "Hello" none, StreamLine.chunk " world" none,
         StreamLine.chunk "" (some (some "stop")), StreamLine.done]
      = [ClientEvent.delta { content := "Hello", finishReason := none },
         ClientEvent.delta { content := " world", finishReason := none },
         ClientEvent.delta { content := "", finishReason := some (some "stop") },
         ClientEvent.doneSentinel] := rfl

/-- C7, confirmed: `SelectModel` maps the alias `vertigo-1.0-blast` with
effort `low` to `gemini-2.0-flash`, `medium` to `gemini-2.5-flash`,
`high` to `gemini-2.5-pro`, and an absent or unrecognized hint to the
default `gemini-2.5-flash`; the translated body carries the selected
model, has the `reasoning_effort` field removed and the other fields
untouched; any non-alias model is returned with the body unchanged. -/
theorem c7_confirmed (b : RequestBody) :
    (b.model ≠ "vertigo-1.0-blast" → selectModel b = (b.model, b)) ∧
    (b.model = "vertigo-1.0-blast" →
      (selectModel b).2.reasoningEffort = none ∧
      (selectModel b).2.rest = b.rest ∧
      (selectModel b).2.model = (selectModel b).1 ∧
      (b.reasoningEffort = some "low" → (selectModel b).1 = "gemini-2.0-flash") ∧
      (b.reasoningEffort = some "medium" → (selectModel b).1 = "gemini-2.5-flash") ∧
      (b.reasoningEffort = some "high" → (selectModel b).1 = "gemini-2.5-pro") ∧
      (b.reasoningEffort = none → (selectModel b).1 = "gemini-2.5-flash") ∧
      (∀ e, b.reasoningEffort = some e → e ≠ "low" → e ≠ "medium" → e ≠ "high" →
        (selectModel b).1 = "gemini-2.5-flash")) := by
  constructor
  · intro h
    simp [selectModel, h]
  · intro h
    have hsel : selectModel b
        = (effortToModel b.reasoningEffort,
           { model := effortToModel b.reasoningEffort, reasoningEffort := none,
             rest := b.rest }) := by
      unfold selectModel
      rw [if_neg (by simp [h])]
    rw [hsel]
    refine ⟨rfl, rfl, rfl, ?_, ?_, ?_, ?_, ?_⟩
    · intro he; rw [he]; rfl
    · intro he; rw [he]; rfl
    · intro he; rw [he]; rfl
    · intro he; rw [he]; rfl
    · intro e he h1 h2 h3
      rw [he]
      unfold effortToModel
      split <;> simp_all

/-- C7, witness: the alias with effort `high` resolves to
`gemini-2.5-pro`, and a non-alias model passes through with the body
untouched. -/
theorem c7_witness :
    (selectModel ⟨"vertigo-1.0-blast", some "high", [("stream", "true")]⟩).1 = "gemini-2.5-pro" ∧
    selectModel ⟨"gpt-4", some "high", []⟩ = ("gpt-4", ⟨"gpt-4", some "high", []⟩) := by
  constructor
  · exact ((c7_confirmed ⟨"vertigo-1.0-blast", some "high", [("stream", "true")]⟩).2
      rfl).2.2.2.2.2.1 rfl
  · exact (c7_confirmed ⟨"gpt-4", some "high", []⟩).1 (by decide)

/-- C8: the claim (and the schema's FOREIGN KEY declaration) is right and
the code is wrong on the empty id: `AddMessage("", "user", "hi")` on a
fresh database makes `GetConversation` create the conversation row under
a freshly generated UUID, yet inserts the message row under the original
empty id — the message references a conversation id that does not exist,
and the referential-integrity check fails. -/
theorem c8_bug_eval :
    riCheck (dbAddMessage { conversations := [], messages := [] }
        "" "user" "hi" "generated-uuid" 5) = false ∧
    (dbAddMessage { conversations := [], messages := [] }
        "" "user" "hi" "generated-uuid" 5).messages
      = [{ conversationId := "", role := "user", content := "hi", timestamp := 5 }] ∧
    (dbAddMessage { conversations := [], messages := [] }
        "" "user" "hi" "generated-uuid" 5).conversations
      = [{ id := "generated-uuid", lastUpdated := 5 }] := by
  refine ⟨by decide, by decide, by decide⟩

/-- C9, counterexample: the system does not generate distinct identifiers
for distinct new conversations — a request with no id resolves to the
fixed placeholder `"default-conversation"` on the header path, and on the
Director path two id-less requests arriving in the same second resolve to
the same timestamp id, so client B's outbound history contains client A's
message: the two unrelated clients share one history. -/
theorem c9_counterexample :
    resolveConversationID "" = "default-conversation" ∧
    (directorProcess
        (directorProcess { conversations := [], messages := [] } ""
          [{ role := "user", content := "A-message" }] "u1" 42).2
        "" [{ role := "user", content := "B-message" }] "u2" 42).1
      = [{ role := "user", content := "A-message" },
         { role := "user", content := "B-message" }] := by
  exact ⟨rfl, by decide⟩

/-- C9, amended: a request without a conversation identifier is assigned
the fixed placeholder `"default-conversation"` (header path) or the
second-resolution request timestamp (Director path) — not an identifier
distinct per new conversation, so unrelated id-less clients can share one
history; a non-empty client-supplied identifier is used as-is; and the
identifier is not returned to the client: the translated response is
independent of the conversation id. -/
theorem c9_amended (hv : String) (g : GeminiResponse) (cid cid2 : String) (now : Nat) :
    (hv = "" → resolveConversationID hv = "default-conversation") ∧
    (hv ≠ "" → resolveConversationID hv = hv) ∧
    (∀ t : Nat, directorConversationID "" t = formatTimestamp t) ∧
    (modifyResponse g cid now).1 = (modifyResponse g cid2 now).1 := by
  refine ⟨?_, ?_, fun _ => rfl, rfl⟩
  · intro he
    simp [resolveConversationID, he]
  · intro he
    simp [resolveConversationID, he]

/-- C9, witness: the empty header resolves to the placeholder id, a
non-empty one passes through. -/
theorem c9_witness :
    resolveConversationID "" = "default-conversation" ∧
    resolveConversationID "abc" = "abc" :=
  ⟨(c9_amended "" ⟨[], ⟨0, 0⟩⟩ "x" "y" 0).1 rfl,
   (c9_amended "abc" ⟨[], ⟨0, 0⟩⟩ "x" "y" 0).2.1 (by decide)⟩

/-- C10, confirmed: the volatile store's `GetConversation` on an existing
conversation id is not a pure read — the stored conversation's
`LastUpdated` becomes the current time (both in the returned value and in
the store, which share the object) while its message sequence is
unchanged; other entries are untouched. -/
theorem c10_confirmed (s : VStore) (id : String) (now : Nat) (c : VConversation)
    (h : s id = some c) :
    (vGetConversation s id now).1.messages = c.messages ∧
    (vGetConversation s id now).1.lastUpdated = now ∧
    (vGetConversation s id now).2 id = some { c with lastUpdated := now } ∧
    ∀ x, x ≠ id → (vGetConversation s id now).2 x = s x := by
  unfold vGetConversation
  rw [h]
  refine ⟨rfl, rfl, by simp, ?_⟩
  intro x hx
  simp [hx]

/-- C10, witness: fetching the existing conversation `"c1"` (one stored
message, last updated at 3) at time 9 returns its unchanged message and
the new timestamp 9. -/
theorem c10_witness :
    (vGetConversation
        (fun x => if x = "c1"
          then some { messages := [{ role := "user", content := "hi" }], lastUpdated := 3 }
          else none) "c1" 9).1.messages = [{ role := "user", content := "hi" }] ∧
    (vGetConversation
        (fun x => if x = "c1"
          then some { messages := [{ role := "user", content := "hi" }], lastUpdated := 3 }
          else none) "c1" 9).1.lastUpdated = 9 := by
  have h := c10_confirmed
    (fun x => if x = "c1"
      then some { messages := [{ role := "user", content := "hi" }], lastUpdated := 3 }
      else none) "c1" 9 { messages := [{ role := "user", content := "hi" }], lastUpdated := 3 }
    (by simp)
  exact ⟨h.1, h.2.1⟩

end Vertigo

